import Mathlib

/-!
Verification of the pmcr-cli core: a shallow embedding of the configuration
loader (`core/config.py`), the dynamic symbol resolver (`core/loader.py`) and
the command runner (`core/runner.py`), together with theorems settling the
specification's testable properties.

Modelling conventions:
- Parsed `.cfg` files are association lists of sections, each section an
  association list of string options (the on-disk textual syntax is out of
  scope per the spec; `configparser`'s strict mode rejects duplicate options,
  so valid sections have pairwise distinct keys).
- Python dictionaries are association lists; `Except String` models raising
  `RuntimeError` with a message.
- The filesystem, the dynamic-module loader and the command callables are an
  explicit oracle (`FS`, `World`); the runner produces the list of UI-sink
  notifications it emits plus an optional propagated error.
- Wall-clock timestamps are rationals supplied by the oracle.
-/

namespace Pmcr

/-- Python `dict` / `configparser` section lookup on an association list. -/
def lookupKey {α : Type} : List (String × α) → String → Option α
  | [], _ => none
  | (k2, v) :: rest, k => if k2 = k then some v else lookupKey rest k

/-- The characters removed by Python `str.strip()` (ASCII whitespace). -/
def pyIsSpace (c : Char) : Bool :=
  c = ' ' || c = '\t' || c = '\n' || c = '\r' || c = '\x0b' || c = '\x0c'

/-- Python `str.strip()`: remove leading and trailing whitespace. -/
def pyStrip (s : String) : String :=
  String.mk (((s.toList.dropWhile pyIsSpace).reverse.dropWhile pyIsSpace).reverse)

/-- Python `s.split(sep, 1)`: the part before the first occurrence of `sep`
and the part after it (the second part may itself contain `sep`). -/
def pySplit1 (s : String) (sep : Char) : String × String :=
  (String.mk (s.toList.takeWhile (fun c => !(c = sep))),
   String.mk ((s.toList.dropWhile (fun c => !(c = sep))).drop 1))

/-! ## Data model (spec §3) -/

/-- `AppMetadata`: the normalized result of `load_app_config`. -/
structure AppMeta where
  name : String
  version : String
  description : String
deriving DecidableEq, Repr

/-- `CommandDefinition`: one normalized entry of `load_modules_config`. -/
structure ModuleDef where
  path : String
  function : String
deriving DecidableEq, Repr

/-- The combined structure returned by `load_config`. -/
structure Configuration where
  app : AppMeta
  modules : List (String × ModuleDef)
deriving DecidableEq, Repr

/-- A parsed `.cfg` section: option name to value. -/
abbrev CfgSection := List (String × String)

/-- A parsed `.cfg` file: section name to section. -/
abbrev Cfg := List (String × CfgSection)

/-- The configuration filesystem: path to parsed file, `none` when missing. -/
abbrev CfgFS := String → Option Cfg

/-! ## core/config.py -/

/-- `_load_cfg`: return the parsed file, or raise when the file is missing. -/
def _load_cfg (fs : CfgFS) (path : String) : Except String Cfg :=
  match fs path with
  | none => Except.error ("Configuration file not found: " ++ path)
  | some cfg => Except.ok cfg

/-- The per-key check of `load_app_config`:
`if key not in app or not app[key].strip(): raise ...`, and the value
subsequently stored is the raw `app[key]`. -/
def requireKey (app : CfgSection) (key : String) : Except String String :=
  match lookupKey app key with
  | none => Except.error ("Missing or empty '" ++ key ++ "' in [app] section")
  | some v =>
    if pyStrip v = "" then
      Except.error ("Missing or empty '" ++ key ++ "' in [app] section")
    else Except.ok v

/-- `load_app_config`: load `cli.cfg`, require the `[app]` section and the
keys `name`, `version`, `description` (present with non-whitespace values),
and return the raw values. -/
def load_app_config (fs : CfgFS) (path : String) : Except String AppMeta :=
  match _load_cfg fs path with
  | Except.error e => Except.error e
  | Except.ok cfg =>
    match lookupKey cfg "app" with
    | none => Except.error "Missing [app] section in cli.cfg"
    | some app =>
      match requireKey app "name" with
      | Except.error e => Except.error e
      | Except.ok nm =>
        match requireKey app "version" with
        | Except.error e => Except.error e
        | Except.ok ver =>
          match requireKey app "description" with
          | Except.error e => Except.error e
          | Except.ok desc => Except.ok ⟨nm, ver, desc⟩

/-- The per-entry validation of `load_modules_config`: raise unless the value
contains `:`; split at the first `:` (Python `target.split(":", 1)`); raise
when either part is empty; otherwise store `{path, function}`. -/
def parseTarget (name target : String) : Except String ModuleDef :=
  if target.toList.contains ':' then
    if (pySplit1 target ':').1 = "" ∨ (pySplit1 target ':').2 = "" then
      Except.error ("Invalid module definition for '" ++ name ++
        "'. Path and function must be non-empty")
    else Except.ok ⟨(pySplit1 target ':').1, (pySplit1 target ':').2⟩
  else
    Except.error ("Invalid module definition for '" ++ name ++
      "'. Expected format: path/to/file.py:function")

/-- The loop of `load_modules_config` over the `[modules]` entries, raising at
the first invalid entry. (`configparser` strict mode guarantees distinct
option names, so appending matches Python dict insertion.) -/
def parseModules : List (String × String) → Except String (List (String × ModuleDef))
  | [] => Except.ok []
  | (name, target) :: rest =>
    match parseTarget name target with
    | Except.error e => Except.error e
    | Except.ok md =>
      match parseModules rest with
      | Except.error e => Except.error e
      | Except.ok l => Except.ok ((name, md) :: l)

/-- `load_modules_config`: load `modules_config.cfg`, require a non-empty
`[modules]` section and validate every entry. -/
def load_modules_config (fs : CfgFS) (path : String) :
    Except String (List (String × ModuleDef)) :=
  match _load_cfg fs path with
  | Except.error e => Except.error e
  | Except.ok cfg =>
    match lookupKey cfg "modules" with
    | none => Except.error "Missing [modules] section in modules_config.cfg"
    | some modules =>
      if modules.isEmpty then
        Except.error "No modules defined in modules_config.cfg"
      else parseModules modules

/-- `load_config`: load both files; any failure aborts the whole load. -/
def load_config (fs : CfgFS) (app_cfg_path modules_cfg_path : String) :
    Except String Configuration :=
  match load_app_config fs app_cfg_path with
  | Except.error e => Except.error e
  | Except.ok a =>
    match load_modules_config fs modules_cfg_path with
    | Except.error e => Except.error e
    | Except.ok m => Except.ok ⟨a, m⟩

/-- The syntactic condition under which `load_modules_config` accepts an
entry value: it contains the separator, and splitting at the first separator
yields a non-empty path and a non-empty function part. -/
def wellFormedTarget (t : String) : Bool :=
  t.toList.contains ':' &&
    !((pySplit1 t ':').1 = "" || (pySplit1 t ':').2 = "")

/-- The three required `[app]` keys are present with non-whitespace values. -/
def validAppSection (app : CfgSection) : Prop :=
  (∃ v, lookupKey app "name" = some v ∧ pyStrip v ≠ "") ∧
  (∃ v, lookupKey app "version" = some v ∧ pyStrip v ≠ "") ∧
  (∃ v, lookupKey app "description" = some v ∧ pyStrip v ≠ "")

/-! ## core/loader.py -/

/-- The filesystem and dynamic-loading oracle for `load_callable`:
`resolveAbs` is `Path(path).resolve()`, `fileExists` is `Path.exists()`, and
`execModule` is `spec.loader.exec_module` — it either raises (the module's
own load-time error) or yields the set of attribute names the loaded module
defines. -/
structure FS where
  resolveAbs : String → String
  fileExists : String → Bool
  execModule : String → Except String (List String)

/-- The three failure modes of `load_callable` (each raised as a
`RuntimeError` in the source, except load-time errors, which propagate as
the loaded module's own exception). -/
inductive ResolutionError where
  | fileNotFound (path : String)
  | loadFailed (e : String)
  | functionNotFound (func : String) (path : String)
deriving DecidableEq, Repr

/-- The callable handle returned by `load_callable`: the resolved file and
the function name, to be invoked later by the runner. -/
structure Callable where
  path : String
  func : String
deriving DecidableEq, Repr

/-- `load_callable`: resolve the path to an absolute location, require the
file to exist, load it as a module (propagating load-time errors), require
the named attribute, and return the callable handle. -/
def load_callable (fs : FS) (path func_name : String) :
    Except ResolutionError Callable :=
  let file_path := fs.resolveAbs path
  if fs.fileExists file_path then
    match fs.execModule file_path with
    | Except.error e => Except.error (ResolutionError.loadFailed e)
    | Except.ok names =>
      if func_name ∈ names then Except.ok ⟨file_path, func_name⟩
      else Except.error (ResolutionError.functionNotFound func_name file_path)
  else Except.error (ResolutionError.fileNotFound file_path)

/-! ## core/runner.py -/

/-- One notification received by the UI sink. `tracePrint` is the direct
`ui.console.print(traceback.format_exc())` call, carrying the diagnostic
trace of the exception; `progressUpdate` is `progress.update(task,
completed=p)`. -/
inductive UIEvent where
  | header (s : String)
  | info (s : String)
  | error (s : String)
  | tracePrint (s : String)
  | success (s : String)
  | fatal (s : String)
  | progressUpdate (task : Nat) (completed : Int)
deriving DecidableEq, Repr

/-- One use of the execution context by the invoked callable. -/
inductive CtxAction where
  | progress (p : Int)
  | log (msg : String)
deriving DecidableEq, Repr

/-- What a resolved callable does when invoked: the context operations it
performs, then either a normal return (`raises = none`) or raising the
exception `e` (`raises = some e`; the exception is identified by its
payload). -/
structure CallBehavior where
  actions : List CtxAction
  raises : Option String
deriving DecidableEq, Repr

/-- The execution context `ctx` built by `run_command`: each capability maps
a call by the command to the UI-sink notification it produces. -/
structure Ctx where
  progress : Int → UIEvent
  log : String → UIEvent

/-- The context dictionary of `run_command`: `progress` forwards `p` as the
task's completion, `log` is `ui.info`. -/
def mkCtx (task : Nat) : Ctx :=
  ⟨fun p => UIEvent.progressUpdate task p, fun msg => UIEvent.info msg⟩

/-- The event produced by one context use of the invoked callable. -/
def applyCtx (ctx : Ctx) : CtxAction → UIEvent
  | CtxAction.progress p => ctx.progress p
  | CtxAction.log msg => ctx.log msg

/-- The oracle for one `run_command` call: the loader's filesystem, the
behavior of the callable at each `(path, function)` on the given arguments,
and the wall-clock readings of the two `time.time()` calls (`t0` before the
invocation, `t1` after it). -/
structure World where
  fs : FS
  behave : String → String → List String → CallBehavior
  t0 : ℚ
  t1 : ℚ

/-- The error propagated by `run_command` to its caller:
the `RuntimeError` for an undefined command, a resolution failure from
`load_callable`, or the re-raised exception of the invoked callable. -/
inductive RunError where
  | notDefined (name : String)
  | resolution (e : ResolutionError)
  | execution (e : String)
deriving DecidableEq, Repr

/-- The header and info notifications emitted before resolution:
`ui.header(f"{app['name']} · {name}")` and `ui.info(f"Loading {path}:{func}")`. -/
def preEvents (conf : Configuration) (name : String) (m : ModuleDef) :
    List UIEvent :=
  [UIEvent.header (conf.app.name ++ " · " ++ name),
   UIEvent.info ("Loading " ++ m.path ++ ":" ++ m.function)]

/-- Python `f"{elapsed:.2f}"` on a rational: the value rounded to hundredths
rendered with exactly two digits after the decimal point. -/
def format2f (q : ℚ) : String :=
  let c : Int := round (q * 100)
  let sign := if c < 0 then "-" else ""
  let n := c.natAbs
  sign ++ toString (n / 100) ++ "." ++
    String.mk [Nat.digitChar (n / 10 % 10), Nat.digitChar (n % 10)]

/-- `run_command`: look up the command (raising when undefined), emit the
header and info notifications, resolve the callable (a failure here
propagates before the try block), invoke it with the execution context
(its context uses becoming UI events), and either re-raise its exception
after the error notification and trace, or emit the success notification
with the elapsed time. Returns the emitted events and the propagated
error, if any. -/
def run_command (conf : Configuration) (name : String) (args : List String)
    (w : World) : List UIEvent × Option RunError :=
  match lookupKey conf.modules name with
  | none => ([], some (RunError.notDefined name))
  | some m =>
    match load_callable w.fs m.path m.function with
    | Except.error e => (preEvents conf name m, some (RunError.resolution e))
    | Except.ok c =>
      let task : Nat := 0
      let ctx := mkCtx task
      let b := w.behave c.path c.func args
      let callableEvents := b.actions.map (applyCtx ctx)
      match b.raises with
      | some e =>
        (preEvents conf name m ++ callableEvents ++
           [UIEvent.error "Command failed", UIEvent.tracePrint e],
         some (RunError.execution e))
      | none =>
        (preEvents conf name m ++ callableEvents ++
           [UIEvent.success ("Completed in " ++ format2f (w.t1 - w.t0) ++ "s")],
         none)

/-- Recognizer for success notifications. -/
def isSuccessEvent : UIEvent → Bool
  | UIEvent.success _ => true
  | _ => false

/-- Recognizer for error notifications. -/
def isErrorEvent : UIEvent → Bool
  | UIEvent.error _ => true
  | _ => false

/-- Recognizer for diagnostic-trace prints. -/
def isTraceEvent : UIEvent → Bool
  | UIEvent.tracePrint _ => true
  | _ => false

/-- Number of success notifications in an event list. -/
def countSuccess (l : List UIEvent) : Nat := (l.filter isSuccessEvent).length

/-- A string rendered with exactly two digits after a decimal point. -/
def hasTwoDecimals (s : String) : Prop :=
  ∃ a b : String, s = a ++ "." ++ b ∧ b.length = 2

/-! ## Concrete fixtures (used by witnesses and counterexamples) -/

/-- A parsed `cli.cfg` with all required keys. -/
def appCfgW : Cfg :=
  [("app", [("name", "PMCR"), ("version", "1.0"), ("description", "demo")])]

/-- A parsed `modules_config.cfg` with one well-formed entry. -/
def modCfgW : Cfg := [("modules", [("hello", "modules/hello.py:main")])]

/-- A configuration filesystem holding both valid files. -/
def cfgFSW : CfgFS := fun p =>
  if p = "cli.cfg" then some appCfgW
  else if p = "modules_config.cfg" then some modCfgW else none

/-- A parsed `cli.cfg` missing the required `version` key. -/
def appCfgNoVer : Cfg := [("app", [("name", "PMCR"), ("description", "d")])]

/-- A configuration filesystem whose `cli.cfg` lacks `version`. -/
def cfgFSNoVer : CfgFS := fun p =>
  if p = "cli.cfg" then some appCfgNoVer
  else if p = "modules_config.cfg" then some modCfgW else none

/-- A parsed `modules_config.cfg` whose single entry has no separator. -/
def modCfgBadEntry : Cfg := [("modules", [("x", "nopath")])]

/-- A configuration filesystem holding only the malformed modules file. -/
def fsBadEntry : CfgFS := fun p =>
  if p = "modules_config.cfg" then some modCfgBadEntry else none

/-- A parsed `modules_config.cfg` whose entry value holds two separators. -/
def modCfgTwoSep : Cfg := [("modules", [("x", "a:b:c")])]

/-- A configuration filesystem holding the two-separator modules file. -/
def fsTwoSep : CfgFS := fun p =>
  if p = "modules_config.cfg" then some modCfgTwoSep else none

/-- A parsed `cli.cfg` whose `name` value carries surrounding whitespace. -/
def appCfgVerbatim : Cfg :=
  [("app", [("name", " Demo "), ("version", "1.0"), ("description", "d")])]

/-- A configuration filesystem holding `appCfgVerbatim`. -/
def fsVerbatim : CfgFS := fun p =>
  if p = "cli.cfg" then some appCfgVerbatim else none

/-- A parsed `cli.cfg` whose `version` value is whitespace-only. -/
def appCfgWS : Cfg :=
  [("app", [("name", "Demo"), ("version", "   "), ("description", "d")])]

/-- A configuration filesystem holding `appCfgWS`. -/
def fsWS : CfgFS := fun p => if p = "cli.cfg" then some appCfgWS else none

/-- A runner configuration with one command, `greet`. -/
def confW : Configuration :=
  ⟨⟨"PMCR", "1.0", "demo"⟩, [("greet", ⟨"greet.py", "main"⟩)]⟩

/-- A loader filesystem on which no file exists. -/
def fsNoFile : FS :=
  ⟨fun p => "/abs/" ++ p, fun _ => false, fun _ => Except.error "boom"⟩

/-- A loader filesystem whose files exist but fail to load. -/
def fsLoadErr : FS :=
  ⟨fun p => "/abs/" ++ p, fun _ => true, fun _ => Except.error "SyntaxError"⟩

/-- A loader filesystem whose modules define only `other`. -/
def fsNoFunc : FS :=
  ⟨fun p => "/abs/" ++ p, fun _ => true, fun _ => Except.ok ["other"]⟩

/-- A loader filesystem whose modules define `main`. -/
def fsOk : FS :=
  ⟨fun p => "/abs/" ++ p, fun _ => true, fun _ => Except.ok ["main"]⟩

/-- A world whose command file is missing. -/
def worldMissing : World := ⟨fsNoFile, fun _ _ _ => ⟨[], none⟩, 0, 0⟩

/-- A world whose command resolves, reports progress, logs, and returns. -/
def worldOk : World :=
  ⟨fsOk, fun _ _ _ => ⟨[CtxAction.progress 50, CtxAction.log "hi"], none⟩,
   0, 1/2⟩

/-- A world whose command resolves and then raises `boom`. -/
def worldRaise : World := ⟨fsOk, fun _ _ _ => ⟨[], some "boom"⟩, 0, 1⟩

/-! ## Helper lemmas -/

lemma pyStrip_of_all_space (v : String) (h : v.toList.all pyIsSpace = true) :
    pyStrip v = "" := by
  unfold pyStrip
  have h1 : v.toList.dropWhile pyIsSpace = [] := by
    rw [List.dropWhile_eq_nil_iff]
    intro x hx
    exact List.all_eq_true.mp h x hx
  rw [h1]
  rfl

lemma requireKey_ok_iff (app : CfgSection) (k v : String) :
    requireKey app k = Except.ok v ↔
      lookupKey app k = some v ∧ pyStrip v ≠ "" := by
  cases h : lookupKey app k with
  | none => simp [requireKey, h]
  | some w =>
    by_cases hw : pyStrip w = ""
    · simp only [requireKey, h, if_pos hw]
      constructor
      · intro hh
        cases hh
      · rintro ⟨hv, hnv⟩
        injection hv with hv
        exact absurd (hv ▸ hw) hnv
    · simp only [requireKey, h, if_neg hw]
      constructor
      · intro hh
        injection hh with hh
        subst hh
        exact ⟨rfl, hw⟩
      · rintro ⟨hv, _⟩
        injection hv with hv
        rw [hv]

lemma load_app_config_ok_of (fs : CfgFS) (path : String) (cfg : Cfg)
    (app : CfgSection) (nv vv dv : String)
    (hf : fs path = some cfg) (hs : lookupKey cfg "app" = some app)
    (hn1 : lookupKey app "name" = some nv) (hn2 : pyStrip nv ≠ "")
    (hv1 : lookupKey app "version" = some vv) (hv2 : pyStrip vv ≠ "")
    (hd1 : lookupKey app "description" = some dv) (hd2 : pyStrip dv ≠ "") :
    load_app_config fs path = Except.ok ⟨nv, vv, dv⟩ := by
  have e1 : requireKey app "name" = Except.ok nv :=
    (requireKey_ok_iff app "name" nv).mpr ⟨hn1, hn2⟩
  have e2 : requireKey app "version" = Except.ok vv :=
    (requireKey_ok_iff app "version" vv).mpr ⟨hv1, hv2⟩
  have e3 : requireKey app "description" = Except.ok dv :=
    (requireKey_ok_iff app "description" dv).mpr ⟨hd1, hd2⟩
  unfold load_app_config _load_cfg
  rw [hf]
  simp [hs, e1, e2, e3]

lemma load_app_config_ok_implies (fs : CfgFS) (path : String) (cfg : Cfg)
    (app : CfgSection) (m : AppMeta)
    (hf : fs path = some cfg) (hs : lookupKey cfg "app" = some app)
    (h : load_app_config fs path = Except.ok m) :
    lookupKey app "name" = some m.name ∧ pyStrip m.name ≠ "" ∧
    lookupKey app "version" = some m.version ∧ pyStrip m.version ≠ "" ∧
    lookupKey app "description" = some m.description ∧
    pyStrip m.description ≠ "" := by
  unfold load_app_config _load_cfg at h
  rw [hf] at h
  simp only [hs] at h
  cases hn : requireKey app "name" with
  | error e => rw [hn] at h; cases h
  | ok nv =>
    rw [hn] at h
    cases hv : requireKey app "version" with
    | error e => rw [hv] at h; cases h
    | ok vv =>
      rw [hv] at h
      cases hd : requireKey app "description" with
      | error e => rw [hd] at h; cases h
      | ok dv =>
        rw [hd] at h
        injection h with h
        subst h
        obtain ⟨a1, a2⟩ := (requireKey_ok_iff app "name" nv).mp hn
        obtain ⟨b1, b2⟩ := (requireKey_ok_iff app "version" vv).mp hv
        obtain ⟨c1, c2⟩ := (requireKey_ok_iff app "description" dv).mp hd
        exact ⟨a1, a2, b1, b2, c1, c2⟩

lemma parseTarget_of_wf (n t : String) (h : wellFormedTarget t = true) :
    parseTarget n t =
      Except.ok ⟨(pySplit1 t ':').1, (pySplit1 t ':').2⟩ := by
  unfold wellFormedTarget at h
  simp only [Bool.and_eq_true, Bool.not_eq_true', Bool.or_eq_false_iff,
    decide_eq_false_iff_not] at h
  unfold parseTarget
  rw [if_pos h.1, if_neg (not_or.mpr ⟨h.2.1, h.2.2⟩)]

lemma parseTarget_of_bad (n t : String) (h : wellFormedTarget t = false) :
    ∃ e, parseTarget n t = Except.error e := by
  by_cases hc : t.toList.contains ':' = true
  · simp only [wellFormedTarget, hc, Bool.true_and, Bool.not_eq_false',
      Bool.or_eq_true, decide_eq_true_eq] at h
    refine ⟨"Invalid module definition for '" ++ n ++
      "'. Path and function must be non-empty", ?_⟩
    unfold parseTarget
    rw [if_pos hc, if_pos h]
  · refine ⟨"Invalid module definition for '" ++ n ++
      "'. Expected format: path/to/file.py:function", ?_⟩
    unfold parseTarget
    rw [if_neg hc]

lemma parseModules_of_wf (entries : List (String × String))
    (h : ∀ p ∈ entries, wellFormedTarget p.2 = true) :
    parseModules entries = Except.ok (entries.map
      (fun p => (p.1, ⟨(pySplit1 p.2 ':').1, (pySplit1 p.2 ':').2⟩))) := by
  induction entries with
  | nil => rfl
  | cons hd tl ih =>
    obtain ⟨n, t⟩ := hd
    have h1 := h (n, t) (List.mem_cons_self _ _)
    simp only [parseModules, parseTarget_of_wf n t h1,
      ih (fun p hp => h p (List.mem_cons_of_mem _ hp)), List.map]

lemma parseModules_error_of_bad (entries : List (String × String))
    (p : String × String) (hp : p ∈ entries)
    (hb : wellFormedTarget p.2 = false) :
    ∃ e, parseModules entries = Except.error e := by
  induction entries with
  | nil => cases hp
  | cons hd tl ih =>
    obtain ⟨n, t⟩ := hd
    cases hpt : parseTarget n t with
    | error e => exact ⟨e, by simp [parseModules, hpt]⟩
    | ok md =>
      rcases List.mem_cons.mp hp with heq | htl
      · subst heq
        obtain ⟨e, he⟩ := parseTarget_of_bad n t hb
        rw [he] at hpt
        cases hpt
      · obtain ⟨e, he⟩ := ih htl
        exact ⟨e, by simp [parseModules, hpt, he]⟩

lemma load_modules_config_of_wf (fs : CfgFS) (path : String) (cfg : Cfg)
    (entries : CfgSection)
    (hf : fs path = some cfg) (hl : lookupKey cfg "modules" = some entries)
    (hne : entries ≠ [])
    (hwf : ∀ p ∈ entries, wellFormedTarget p.2 = true) :
    load_modules_config fs path = Except.ok (entries.map
      (fun p => (p.1, ⟨(pySplit1 p.2 ':').1, (pySplit1 p.2 ':').2⟩))) := by
  unfold load_modules_config _load_cfg
  rw [hf]
  simp only [hl]
  cases entries with
  | nil => exact absurd rfl hne
  | cons hd tl =>
    simp only [List.isEmpty_cons, Bool.false_eq_true, if_false]
    exact parseModules_of_wf _ hwf

lemma load_modules_config_error_of_bad (fs : CfgFS) (path : String)
    (cfg : Cfg) (entries : CfgSection) (p : String × String)
    (hf : fs path = some cfg) (hl : lookupKey cfg "modules" = some entries)
    (hp : p ∈ entries) (hb : wellFormedTarget p.2 = false) :
    ∃ e, load_modules_config fs path = Except.error e := by
  obtain ⟨e, he⟩ := parseModules_error_of_bad entries p hp hb
  refine ⟨e, ?_⟩
  unfold load_modules_config _load_cfg
  rw [hf]
  simp only [hl]
  cases entries with
  | nil => cases hp
  | cons hd tl =>
    simp only [List.isEmpty_cons, Bool.false_eq_true, if_false]
    exact he

lemma countSuccess_append (a b : List UIEvent) :
    countSuccess (a ++ b) = countSuccess a + countSuccess b := by
  simp [countSuccess, List.filter_append]

lemma countSuccess_callableEvents (task : Nat) (actions : List CtxAction) :
    countSuccess (actions.map (applyCtx (mkCtx task))) = 0 := by
  induction actions with
  | nil => rfl
  | cons a as ih =>
    cases a with
    | progress p => simpa [countSuccess, applyCtx, mkCtx, isSuccessEvent,
        List.filter_cons] using ih
    | log msg => simpa [countSuccess, applyCtx, mkCtx, isSuccessEvent,
        List.filter_cons] using ih

lemma format2f_hasTwoDecimals (q : ℚ) : hasTwoDecimals (format2f q) := by
  refine ⟨(if round (q * 100) < 0 then "-" else "") ++
    toString ((round (q * 100)).natAbs / 100),
    String.mk [Nat.digitChar ((round (q * 100)).natAbs / 10 % 10),
      Nat.digitChar ((round (q * 100)).natAbs % 10)], ?_, rfl⟩
  rfl

/-! ## Claim theorems -/

/-- C1: for every pair of configuration sources satisfying the schema (both
files present, `[app]` section with the three required keys non-whitespace,
`[modules]` section non-empty with every entry well formed and, as
`configparser` strict mode guarantees, pairwise distinct names), `load_config`
returns a configuration whose commands mapping has exactly as many entries as
the commands source and whose keys are exactly the entries' names, character
for character. -/
theorem load_config_commands_exact
    (fs : CfgFS) (app_cfg_path modules_cfg_path : String)
    (appCfg modCfg : Cfg) (app : CfgSection) (entries : CfgSection)
    (hfa : fs app_cfg_path = some appCfg)
    (hsa : lookupKey appCfg "app" = some app)
    (hva : validAppSection app)
    (hfm : fs modules_cfg_path = some modCfg)
    (hsm : lookupKey modCfg "modules" = some entries)
    (hne : entries ≠ [])
    (_hnd : (entries.map Prod.fst).Nodup)
    (hwf : ∀ p ∈ entries, wellFormedTarget p.2 = true) :
    ∃ conf : Configuration,
      load_config fs app_cfg_path modules_cfg_path = Except.ok conf ∧
      conf.modules.length = entries.length ∧
      conf.modules.map Prod.fst = entries.map Prod.fst := by
  obtain ⟨⟨nv, hn1, hn2⟩, ⟨vv, hv1, hv2⟩, ⟨dv, hd1, hd2⟩⟩ := hva
  have ha : load_app_config fs app_cfg_path = Except.ok ⟨nv, vv, dv⟩ :=
    load_app_config_ok_of fs app_cfg_path appCfg app nv vv dv hfa hsa
      hn1 hn2 hv1 hv2 hd1 hd2
  have hm := load_modules_config_of_wf fs modules_cfg_path modCfg entries
    hfm hsm hne hwf
  refine ⟨⟨⟨nv, vv, dv⟩, entries.map
    (fun p => (p.1, ⟨(pySplit1 p.2 ':').1, (pySplit1 p.2 ':').2⟩))⟩,
    ?_, ?_, ?_⟩
  · unfold load_config
    rw [ha, hm]
  · simp
  · simp [List.map_map]

/-- C1 witness: the valid sample sources load to one command named `hello`. -/
theorem load_config_commands_exact_witness :
    ∃ conf : Configuration,
      load_config cfgFSW "cli.cfg" "modules_config.cfg" = Except.ok conf ∧
      conf.modules.length =
        ([("hello", "modules/hello.py:main")] : CfgSection).length ∧
      conf.modules.map Prod.fst =
        ([("hello", "modules/hello.py:main")] : CfgSection).map Prod.fst :=
  load_config_commands_exact cfgFSW "cli.cfg" "modules_config.cfg"
    appCfgW modCfgW
    [("name", "PMCR"), ("version", "1.0"), ("description", "demo")]
    [("hello", "modules/hello.py:main")]
    rfl rfl
    ⟨⟨"PMCR", rfl, by decide⟩, ⟨"1.0", rfl, by decide⟩,
     ⟨"demo", rfl, by decide⟩⟩
    rfl rfl (by decide) (by decide) (by decide)

/-- C8: configuration loading is atomic — whenever the `[app]` section is
missing, a required metadata key is missing or (whitespace-)empty, or any
single command entry is malformed, `load_config` raises and no configuration
structure is ever returned. -/
theorem load_config_atomic
    (fs : CfgFS) (app_cfg_path modules_cfg_path : String)
    (h :
      (∃ cfg, fs app_cfg_path = some cfg ∧ lookupKey cfg "app" = none) ∨
      (∃ cfg app k, fs app_cfg_path = some cfg ∧
         lookupKey cfg "app" = some app ∧
         (k = "name" ∨ k = "version" ∨ k = "description") ∧
         (lookupKey app k = none ∨
          ∃ v, lookupKey app k = some v ∧ pyStrip v = "")) ∨
      (∃ cfg entries p, fs modules_cfg_path = some cfg ∧
         lookupKey cfg "modules" = some entries ∧ p ∈ entries ∧
         wellFormedTarget p.2 = false)) :
    (∃ msg, load_config fs app_cfg_path modules_cfg_path =
       Except.error msg) ∧
    ∀ conf, load_config fs app_cfg_path modules_cfg_path ≠
       Except.ok conf := by
  have main : ∃ msg, load_config fs app_cfg_path modules_cfg_path =
      Except.error msg := by
    cases ha : load_app_config fs app_cfg_path with
    | error e =>
      refine ⟨e, ?_⟩
      unfold load_config
      rw [ha]
    | ok m =>
      rcases h with ⟨cfg, hf, hs⟩ | ⟨cfg, app, k, hf, hs, hk, hbad⟩ |
        ⟨cfg, entries, p, hf, hl, hp, hb⟩
      · exfalso
        unfold load_app_config _load_cfg at ha
        rw [hf] at ha
        simp only [hs] at ha
        cases ha
      · exfalso
        obtain ⟨n1, n2, v1, v2, d1, d2⟩ :=
          load_app_config_ok_implies fs app_cfg_path cfg app m hf hs ha
        rcases hk with rfl | rfl | rfl
        · rcases hbad with hnone | ⟨v, hv, hvs⟩
          · rw [n1] at hnone; cases hnone
          · rw [n1] at hv
            injection hv with hv
            exact n2 (by rw [hv]; exact hvs)
        · rcases hbad with hnone | ⟨v, hv, hvs⟩
          · rw [v1] at hnone; cases hnone
          · rw [v1] at hv
            injection hv with hv
            exact v2 (by rw [hv]; exact hvs)
        · rcases hbad with hnone | ⟨v, hv, hvs⟩
          · rw [d1] at hnone; cases hnone
          · rw [d1] at hv
            injection hv with hv
            exact d2 (by rw [hv]; exact hvs)
      · obtain ⟨e, he⟩ := load_modules_config_error_of_bad fs
          modules_cfg_path cfg entries p hf hl hp hb
        refine ⟨e, ?_⟩
        unfold load_config
        rw [ha, he]
  refine ⟨main, ?_⟩
  obtain ⟨msg, hmsg⟩ := main
  intro conf hconf
  rw [hmsg] at hconf
  cases hconf

/-- C8 witness: a `cli.cfg` lacking `version` makes the whole load fail. -/
theorem load_config_atomic_witness :
    (∃ msg, load_config cfgFSNoVer "cli.cfg" "modules_config.cfg" =
       Except.error msg) ∧
    ∀ conf, load_config cfgFSNoVer "cli.cfg" "modules_config.cfg" ≠
       Except.ok conf :=
  load_config_atomic cfgFSNoVer "cli.cfg" "modules_config.cfg"
    (Or.inr (Or.inl ⟨appCfgNoVer, [("name", "PMCR"), ("description", "d")],
      "version", rfl, rfl, Or.inr (Or.inl rfl), Or.inl (by decide)⟩))

/-- C10: a required `[app]` value that is non-empty but consists only of
whitespace is rejected by `load_app_config` (the load fails), while any
accepted value is returned verbatim, without stripping surrounding
whitespace. -/
theorem load_app_config_whitespace_rejected_verbatim_kept
    (fs : CfgFS) (path : String) (cfg : Cfg) (app : CfgSection)
    (hf : fs path = some cfg) (hs : lookupKey cfg "app" = some app) :
    (∀ k v, (k = "name" ∨ k = "version" ∨ k = "description") →
       lookupKey app k = some v → v ≠ "" →
       v.toList.all pyIsSpace = true →
       ∃ msg, load_app_config fs path = Except.error msg) ∧
    (∀ m : AppMeta, load_app_config fs path = Except.ok m →
       lookupKey app "name" = some m.name ∧
       lookupKey app "version" = some m.version ∧
       lookupKey app "description" = some m.description) := by
  constructor
  · intro k v hk hv _ hws
    have hstrip : pyStrip v = "" := pyStrip_of_all_space v hws
    cases ha : load_app_config fs path with
    | error e => exact ⟨e, rfl⟩
    | ok m =>
      exfalso
      obtain ⟨n1, n2, v1, v2, d1, d2⟩ :=
        load_app_config_ok_implies fs path cfg app m hf hs ha
      rcases hk with rfl | rfl | rfl
      · rw [n1] at hv
        injection hv with hv
        exact n2 (by rw [hv]; exact hstrip)
      · rw [v1] at hv
        injection hv with hv
        exact v2 (by rw [hv]; exact hstrip)
      · rw [d1] at hv
        injection hv with hv
        exact d2 (by rw [hv]; exact hstrip)
  · intro m hm
    obtain ⟨n1, _, v1, _, d1, _⟩ :=
      load_app_config_ok_implies fs path cfg app m hf hs hm
    exact ⟨n1, v1, d1⟩

/-- C10 witness: a whitespace-only `version` fails the load, and an accepted
`name` value keeps its surrounding whitespace. -/
theorem load_app_config_whitespace_witness :
    (∃ msg, load_app_config fsWS "cli.cfg" = Except.error msg) ∧
    (lookupKey [("name", " Demo "), ("version", "1.0"), ("description", "d")]
       "name" = some " Demo " ∧
     lookupKey [("name", " Demo "), ("version", "1.0"), ("description", "d")]
       "version" = some "1.0" ∧
     lookupKey [("name", " Demo "), ("version", "1.0"), ("description", "d")]
       "description" = some "d") :=
  ⟨(load_app_config_whitespace_rejected_verbatim_kept fsWS "cli.cfg" appCfgWS
      [("name", "Demo"), ("version", "   "), ("description", "d")]
      rfl rfl).1 "version" "   " (Or.inr (Or.inl rfl)) rfl (by decide)
      (by decide),
   (load_app_config_whitespace_rejected_verbatim_kept fsVerbatim "cli.cfg"
      appCfgVerbatim
      [("name", " Demo "), ("version", "1.0"), ("description", "d")]
      rfl rfl).2 ⟨" Demo ", "1.0", "d"⟩ rfl⟩

/-- C3 counterexample: the claim says an entry whose value holds more than
one separator fails the load; but `a:b:c` holds two separators and is
accepted, splitting at the first one. -/
theorem two_separator_entry_accepted :
    ("a:b:c".toList.count ':' = 2) ∧
    parseTarget "x" "a:b:c" = Except.ok ⟨"a", "b:c"⟩ ∧
    load_modules_config fsTwoSep "modules_config.cfg" =
      Except.ok [("x", ⟨"a", "b:c"⟩)] := by
  refine ⟨by decide, rfl, rfl⟩

/-- C3 amended: an entry is accepted iff its value contains at least one
separator and splitting at the first separator yields a non-empty path and a
non-empty function part (which may itself contain further separators); an
entry with zero separators, or with an empty path or function part around
the first separator, fails with an error naming that command, and any such
entry anywhere in the section fails the whole load. -/
theorem module_entry_first_separator_validation :
    (∀ name target : String,
      (target.toList.contains ':' = false →
        parseTarget name target = Except.error
          ("Invalid module definition for '" ++ name ++
            "'. Expected format: path/to/file.py:function")) ∧
      ((pySplit1 target ':').1 = "" ∨ (pySplit1 target ':').2 = "" →
        target.toList.contains ':' = true →
        parseTarget name target = Except.error
          ("Invalid module definition for '" ++ name ++
            "'. Path and function must be non-empty")) ∧
      (target.toList.contains ':' = true →
        (pySplit1 target ':').1 ≠ "" → (pySplit1 target ':').2 ≠ "" →
        parseTarget name target =
          Except.ok ⟨(pySplit1 target ':').1, (pySplit1 target ':').2⟩)) ∧
    (∀ (fs : CfgFS) (path : String) (cfg : Cfg) (entries : CfgSection)
       (p : String × String),
      fs path = some cfg → lookupKey cfg "modules" = some entries →
      p ∈ entries → wellFormedTarget p.2 = false →
      ∃ e, load_modules_config fs path = Except.error e) := by
  constructor
  · intro name target
    refine ⟨?_, ?_, ?_⟩
    · intro hc
      have hcp : ¬(target.toList.contains ':' = true) := by
        rw [hc]
        exact Bool.false_ne_true
      unfold parseTarget
      rw [if_neg hcp]
    · intro hsplit hc
      unfold parseTarget
      rw [if_pos hc, if_pos hsplit]
    · intro hc h1 h2
      refine parseTarget_of_wf name target ?_
      have e1 : decide ((pySplit1 target ':').1 = "") = false :=
        decide_eq_false h1
      have e2 : decide ((pySplit1 target ':').2 = "") = false :=
        decide_eq_false h2
      unfold wellFormedTarget
      rw [hc, e1, e2]
      rfl
  · intro fs path cfg entries p hf hl hp hb
    exact load_modules_config_error_of_bad fs path cfg entries p hf hl hp hb

/-- C3 witness: the three entry shapes behave as amended, and a malformed
entry fails the whole load. -/
theorem module_entry_first_separator_validation_witness :
    parseTarget "x" "nocolon" = Except.error
      "Invalid module definition for 'x'. Expected format: path/to/file.py:function" ∧
    parseTarget "y" ":main" = Except.error
      "Invalid module definition for 'y'. Path and function must be non-empty" ∧
    parseTarget "z" "mod.py:main" = Except.ok ⟨"mod.py", "main"⟩ ∧
    (∃ e, load_modules_config fsBadEntry "modules_config.cfg" =
      Except.error e) :=
  ⟨(module_entry_first_separator_validation.1 "x" "nocolon").1 (by decide),
   (module_entry_first_separator_validation.1 "y" ":main").2.1 (by decide)
     (by decide),
   (module_entry_first_separator_validation.1 "z" "mod.py:main").2.2
     (by decide) (by decide) (by decide),
   module_entry_first_separator_validation.2 fsBadEntry "modules_config.cfg"
     modCfgBadEntry [("x", "nopath")] ("x", "nopath") rfl rfl (by decide)
     (by decide)⟩

/-- C7: `load_callable` first resolves the path to an absolute location and
fails with a resolution error whenever the resolved file does not exist,
whenever loading the file raises, and whenever the named function is absent
from the loaded module; otherwise it returns the callable handle. -/
theorem load_callable_outcomes (fs : FS) (path func_name : String) :
    (fs.fileExists (fs.resolveAbs path) = false →
       load_callable fs path func_name =
         Except.error (ResolutionError.fileNotFound (fs.resolveAbs path))) ∧
    (∀ e, fs.fileExists (fs.resolveAbs path) = true →
       fs.execModule (fs.resolveAbs path) = Except.error e →
       load_callable fs path func_name =
         Except.error (ResolutionError.loadFailed e)) ∧
    (∀ names, fs.fileExists (fs.resolveAbs path) = true →
       fs.execModule (fs.resolveAbs path) = Except.ok names →
       func_name ∉ names →
       load_callable fs path func_name =
         Except.error
           (ResolutionError.functionNotFound func_name (fs.resolveAbs path))) ∧
    (∀ names, fs.fileExists (fs.resolveAbs path) = true →
       fs.execModule (fs.resolveAbs path) = Except.ok names →
       func_name ∈ names →
       load_callable fs path func_name =
         Except.ok ⟨fs.resolveAbs path, func_name⟩) := by
  refine ⟨?_, ?_, ?_, ?_⟩
  · intro hne
    simp [load_callable, hne]
  · intro e hex herr
    simp [load_callable, hex, herr]
  · intro names hex hok hni
    simp [load_callable, hex, hok, hni]
  · intro names hex hok hmem
    simp [load_callable, hex, hok, hmem]

/-- C7 witness: the three failure modes and the success mode, each realized
on a concrete loader filesystem. -/
theorem load_callable_outcomes_witness :
    load_callable fsNoFile "f.py" "main" =
      Except.error (ResolutionError.fileNotFound "/abs/f.py") ∧
    load_callable fsLoadErr "f.py" "main" =
      Except.error (ResolutionError.loadFailed "SyntaxError") ∧
    load_callable fsNoFunc "f.py" "main" =
      Except.error (ResolutionError.functionNotFound "main" "/abs/f.py") ∧
    load_callable fsOk "f.py" "main" = Except.ok ⟨"/abs/f.py", "main"⟩ :=
  ⟨(load_callable_outcomes fsNoFile "f.py" "main").1 rfl,
   (load_callable_outcomes fsLoadErr "f.py" "main").2.1 "SyntaxError" rfl rfl,
   (load_callable_outcomes fsNoFunc "f.py" "main").2.2.1 ["other"] rfl rfl
     (by decide),
   (load_callable_outcomes fsOk "f.py" "main").2.2.2 ["main"] rfl rfl
     (by decide)⟩

/-- C4: for every configuration and command name absent from the commands
mapping, `run_command` fails with the `command not defined` error; the
result is the same for every world — the resolver and the callable oracles
are never consulted — and no UI notification is emitted. -/
theorem run_command_undefined_command (conf : Configuration) (name : String)
    (args : List String) (h : lookupKey conf.modules name = none) :
    ∀ w : World,
      run_command conf name args w = ([], some (RunError.notDefined name)) := by
  intro w
  simp [run_command, h]

/-- C4 witness: running the undefined command `nope` fails without output. -/
theorem run_command_undefined_command_witness :
    run_command confW "nope" [] worldMissing =
      ([], some (RunError.notDefined "nope")) :=
  run_command_undefined_command confW "nope" [] (by decide) worldMissing

/-- C2 counterexample: the claim says a failed resolution is reported via an
error notification plus a diagnostic trace before propagating; but on a
missing command file `run_command` propagates the resolution error having
emitted no error notification and no trace at all. -/
theorem resolution_failure_emits_no_error_notification :
    (run_command confW "greet" [] worldMissing).2 =
      some (RunError.resolution
        (ResolutionError.fileNotFound "/abs/greet.py")) ∧
    ((run_command confW "greet" [] worldMissing).1.filter
      (fun ev => isErrorEvent ev || isTraceEvent ev)) = [] := by
  exact ⟨rfl, rfl⟩

/-- C2 amended: when symbol resolution fails, `run_command` propagates the
resolution error to its caller, but emits no error notification and no
diagnostic trace itself — the UI sink receives only the header and info
notifications emitted before resolution (reporting is left to the entry
point's fatal handler). -/
theorem run_command_resolution_propagates
    (conf : Configuration) (name : String) (args : List String) (w : World)
    (m : ModuleDef) (e : ResolutionError)
    (hm : lookupKey conf.modules name = some m)
    (he : load_callable w.fs m.path m.function = Except.error e) :
    run_command conf name args w =
      (preEvents conf name m, some (RunError.resolution e)) ∧
    (preEvents conf name m).filter
      (fun ev => isErrorEvent ev || isTraceEvent ev) = [] := by
  constructor
  · simp [run_command, hm, he]
  · rfl

/-- C2 witness: the missing-file world propagates `fileNotFound` after only
the header and info notifications. -/
theorem run_command_resolution_propagates_witness :
    run_command confW "greet" [] worldMissing =
      (preEvents confW "greet" ⟨"greet.py", "main"⟩,
       some (RunError.resolution
         (ResolutionError.fileNotFound "/abs/greet.py"))) ∧
    (preEvents confW "greet" ⟨"greet.py", "main"⟩).filter
      (fun ev => isErrorEvent ev || isTraceEvent ev) = [] :=
  run_command_resolution_propagates confW "greet" [] worldMissing
    ⟨"greet.py", "main"⟩ (ResolutionError.fileNotFound "/abs/greet.py")
    rfl rfl

/-- C5: when the invoked callable raises, `run_command` emits the error
notification and the full diagnostic trace to the UI sink, then propagates
the very same error unchanged; no success notification is emitted. -/
theorem run_command_callable_error_reraised
    (conf : Configuration) (name : String) (args : List String) (w : World)
    (m : ModuleDef) (c : Callable) (e : String)
    (hm : lookupKey conf.modules name = some m)
    (hc : load_callable w.fs m.path m.function = Except.ok c)
    (he : (w.behave c.path c.func args).raises = some e) :
    run_command conf name args w =
      (preEvents conf name m ++
         (w.behave c.path c.func args).actions.map (applyCtx (mkCtx 0)) ++
         [UIEvent.error "Command failed", UIEvent.tracePrint e],
       some (RunError.execution e)) ∧
    countSuccess (run_command conf name args w).1 = 0 := by
  have hrun : run_command conf name args w =
      (preEvents conf name m ++
         (w.behave c.path c.func args).actions.map (applyCtx (mkCtx 0)) ++
         [UIEvent.error "Command failed", UIEvent.tracePrint e],
       some (RunError.execution e)) := by
    simp [run_command, hm, hc, he]
  refine ⟨hrun, ?_⟩
  rw [hrun]
  show countSuccess (preEvents conf name m ++
    (w.behave c.path c.func args).actions.map (applyCtx (mkCtx 0)) ++
    [UIEvent.error "Command failed", UIEvent.tracePrint e]) = 0
  rw [countSuccess_append, countSuccess_append,
    countSuccess_callableEvents]
  rfl

/-- C5 witness: the raising world re-raises `boom` after the error
notification and trace, with no success notification. -/
theorem run_command_callable_error_reraised_witness :
    run_command confW "greet" [] worldRaise =
      (preEvents confW "greet" ⟨"greet.py", "main"⟩ ++
         (worldRaise.behave "/abs/greet.py" "main" []).actions.map
           (applyCtx (mkCtx 0)) ++
         [UIEvent.error "Command failed", UIEvent.tracePrint "boom"],
       some (RunError.execution "boom")) ∧
    countSuccess (run_command confW "greet" [] worldRaise).1 = 0 :=
  run_command_callable_error_reraised confW "greet" [] worldRaise
    ⟨"greet.py", "main"⟩ ⟨"/abs/greet.py", "main"⟩ "boom" rfl rfl rfl

/-- C6: under a monotone wall clock, a run whose callable returns normally
emits exactly one success notification, containing the elapsed time, which
is ≥ 0 and formatted to two decimal places of seconds; on every other path
no success notification is emitted. -/
theorem run_command_success_exactly_once
    (conf : Configuration) (name : String) (args : List String) (w : World)
    (ht : w.t0 ≤ w.t1) :
    (∀ m c, lookupKey conf.modules name = some m →
       load_callable w.fs m.path m.function = Except.ok c →
       (w.behave c.path c.func args).raises = none →
       countSuccess (run_command conf name args w).1 = 1 ∧
       0 ≤ w.t1 - w.t0 ∧
       UIEvent.success ("Completed in " ++ format2f (w.t1 - w.t0) ++ "s")
         ∈ (run_command conf name args w).1 ∧
       hasTwoDecimals (format2f (w.t1 - w.t0))) ∧
    ((run_command conf name args w).2 ≠ none →
       countSuccess (run_command conf name args w).1 = 0) := by
  constructor
  · intro m c hm hc hr
    have hrun : run_command conf name args w =
        (preEvents conf name m ++
           (w.behave c.path c.func args).actions.map (applyCtx (mkCtx 0)) ++
           [UIEvent.success
             ("Completed in " ++ format2f (w.t1 - w.t0) ++ "s")],
         none) := by
      simp [run_command, hm, hc, hr]
    refine ⟨?_, sub_nonneg.mpr ht, ?_, format2f_hasTwoDecimals _⟩
    · rw [hrun]
      show countSuccess (preEvents conf name m ++
        (w.behave c.path c.func args).actions.map (applyCtx (mkCtx 0)) ++
        [UIEvent.success
          ("Completed in " ++ format2f (w.t1 - w.t0) ++ "s")]) = 0 + 1
      rw [countSuccess_append, countSuccess_append,
        countSuccess_callableEvents]
      rfl
    · rw [hrun]
      simp
  · intro hne
    cases h1 : lookupKey conf.modules name with
    | none => simp [run_command, h1, countSuccess]
    | some m =>
      cases h2 : load_callable w.fs m.path m.function with
      | error e =>
        have hrun : run_command conf name args w =
            (preEvents conf name m, some (RunError.resolution e)) := by
          simp [run_command, h1, h2]
        rw [hrun]
        rfl
      | ok c =>
        cases h3 : (w.behave c.path c.func args).raises with
        | none =>
          exfalso
          apply hne
          simp [run_command, h1, h2, h3]
        | some e =>
          have hrun : run_command conf name args w =
              (preEvents conf name m ++
                 (w.behave c.path c.func args).actions.map
                   (applyCtx (mkCtx 0)) ++
                 [UIEvent.error "Command failed", UIEvent.tracePrint e],
               some (RunError.execution e)) := by
            simp [run_command, h1, h2, h3]
          rw [hrun]
          show countSuccess (preEvents conf name m ++
            (w.behave c.path c.func args).actions.map (applyCtx (mkCtx 0)) ++
            [UIEvent.error "Command failed", UIEvent.tracePrint e]) = 0
          rw [countSuccess_append, countSuccess_append,
            countSuccess_callableEvents]
          rfl

/-- C6 witness: the normally-returning world emits exactly one success
notification. -/
theorem run_command_success_exactly_once_witness :
    countSuccess (run_command confW "greet" [] worldOk).1 = 1 :=
  ((run_command_success_exactly_once confW "greet" [] worldOk
      (by norm_num [worldOk])).1
    ⟨"greet.py", "main"⟩ ⟨"/abs/greet.py", "main"⟩ rfl rfl rfl).1

/-- C9: every run that reaches invocation passes the callable a context
exposing exactly two capabilities — a progress report forwarding an integer
in [0,100] as the task's completion, and a log forwarding its message to the
UI sink's info notification; a context carries nothing beyond these two
capabilities, and the events the callable contributes arise exactly through
them. -/
theorem execution_context_two_capabilities
    (conf : Configuration) (name : String) (args : List String) (w : World)
    (m : ModuleDef) (c : Callable)
    (hm : lookupKey conf.modules name = some m)
    (hc : load_callable w.fs m.path m.function = Except.ok c) :
    (∀ p : Int, 0 ≤ p → p ≤ 100 →
       (mkCtx 0).progress p = UIEvent.progressUpdate 0 p) ∧
    (∀ msg : String, (mkCtx 0).log msg = UIEvent.info msg) ∧
    (∀ ctx : Ctx, ctx = ⟨ctx.progress, ctx.log⟩) ∧
    (∃ tail, (run_command conf name args w).1 =
       preEvents conf name m ++
         (w.behave c.path c.func args).actions.map (applyCtx (mkCtx 0)) ++
         tail) := by
  refine ⟨fun p _ _ => rfl, fun msg => rfl, fun ctx => rfl, ?_⟩
  cases h3 : (w.behave c.path c.func args).raises with
  | none =>
    exact ⟨[UIEvent.success
      ("Completed in " ++ format2f (w.t1 - w.t0) ++ "s")],
      by simp [run_command, hm, hc, h3]⟩
  | some e =>
    exact ⟨[UIEvent.error "Command failed", UIEvent.tracePrint e],
      by simp [run_command, hm, hc, h3]⟩

/-- C9 witness: the sample run's callable-contributed events flow through
the two context capabilities. -/
theorem execution_context_two_capabilities_witness :
    (∀ p : Int, 0 ≤ p → p ≤ 100 →
       (mkCtx 0).progress p = UIEvent.progressUpdate 0 p) ∧
    (∃ tail, (run_command confW "greet" [] worldOk).1 =
       preEvents confW "greet" ⟨"greet.py", "main"⟩ ++
         (worldOk.behave "/abs/greet.py" "main" []).actions.map
           (applyCtx (mkCtx 0)) ++ tail) :=
  ⟨(execution_context_two_capabilities confW "greet" [] worldOk
      ⟨"greet.py", "main"⟩ ⟨"/abs/greet.py", "main"⟩ rfl rfl).1,
   (execution_context_two_capabilities confW "greet" [] worldOk
      ⟨"greet.py", "main"⟩ ⟨"/abs/greet.py", "main"⟩ rfl rfl).2.2.2⟩

end Pmcr
